import Mathlib

/-!
Shallow embedding of the tinode/fcm client (src/fcm.go).

The source file holds two revisions of the same package: the first
declares `SendHttp` (which checks the HTTP status code before decoding),
the second declares `Send` (which decodes the body regardless of status).
Both share the data types, `NewClient` and `GetRetryAfter`.

Go's `encoding/json` is modelled by an explicit JSON value type, a
string-level parser, and per-struct encode/decode functions that follow
the struct tags of the source.  JSON numbers are modelled as integers:
every number this client produces or consumes is an integer count, and
`json.Unmarshal` rejects non-integral numbers for the `int` fields used
here.  Machine integers are Nat/Int with explicit `% 2 ^ 64` at the one
place Go converts (`uint(ra)` in `GetRetryAfter`).
-/

namespace Fcm

/-- JSON values, the target of Go's `encoding/json` for this package. -/
inductive Json where
  | null : Json
  | bool (b : Bool) : Json
  | num (n : Int) : Json
  | str (s : String) : Json
  | arr (xs : List Json) : Json
  | obj (fields : List (String × Json)) : Json

/-- The character `{` (written by code point to keep string scanning simple). -/
def lbrace : Char := Char.ofNat 123

/-- The character `}`. -/
def rbrace : Char := Char.ofNat 125

/-- JSON insignificant whitespace, as in Go's scanner. -/
def skipWs : List Char → List Char
  | [] => []
  | c :: r => if c = ' ' || c = '\t' || c = '\n' || c = '\r' then skipWs r else c :: r

/-- One-character JSON string escapes recognised by the scanner
(`\uXXXX` is left out: no claim exercises it). -/
def escChar (c : Char) : Option Char :=
  if c = '"' then some '"'
  else if c = '\\' then some '\\'
  else if c = '/' then some '/'
  else if c = 'n' then some '\n'
  else if c = 't' then some '\t'
  else if c = 'r' then some '\r'
  else if c = 'b' then some (Char.ofNat 8)
  else if c = 'f' then some (Char.ofNat 12)
  else none

/-- Parse the body of a JSON string after the opening quote; `acc` holds the
characters read so far, reversed. -/
def parseStrAux (acc : List Char) : List Char → Option (String × List Char)
  | [] => none
  | c :: r =>
    if c = '"' then some (String.mk acc.reverse, r)
    else if c = '\\' then
      match r with
      | [] => none
      | e :: r2 =>
        match escChar e with
        | some ec => parseStrAux (ec :: acc) r2
        | none => none
    else parseStrAux (c :: acc) r

/-- Split off leading decimal digits. -/
def takeDigits : List Char → List Char × List Char
  | [] => ([], [])
  | c :: r =>
    if c.isDigit then
      let (ds, rest) := takeDigits r
      (c :: ds, rest)
    else ([], c :: r)

/-- Digits to a natural number (most significant first). -/
def digitsToNat (ds : List Char) : Nat :=
  ds.foldl (fun a c => a * 10 + (c.toNat - 48)) 0

/-- Parse a JSON integer literal: optional minus, digits, no leading zero.
A fractional or exponent part is not consumed, so such input fails at the
surrounding delimiter, as a decode error either way. -/
def parseNum (cs : List Char) : Option (Int × List Char) :=
  let (neg, cs') := match cs with
    | '-' :: r => (true, r)
    | r => (false, r)
  let (ds, rest) := takeDigits cs'
  match ds with
  | [] => none
  | d :: ds' =>
    if d = '0' && !ds'.isEmpty then none
    else
      let n : Int := (digitsToNat (d :: ds') : Int)
      some (if neg then -n else n, rest)

/-- Require a literal run of characters. -/
def expectLit : List Char → List Char → Option (List Char)
  | [], rest => some rest
  | l :: ls, c :: r => if c = l then expectLit ls r else none
  | _ :: _, [] => none

mutual

/-- Parse one JSON value; `fuel` bounds the recursion and is sized from the
input length at the top level. -/
def parseVal : Nat → List Char → Option (Json × List Char)
  | 0, _ => none
  | fuel + 1, cs =>
    match skipWs cs with
    | [] => none
    | c :: r =>
      if c = '"' then
        match parseStrAux [] r with
        | some (s, rest) => some (.str s, rest)
        | none => none
      else if c = lbrace then
        match parseObjTail fuel true r with
        | some (fs, rest) => some (.obj fs, rest)
        | none => none
      else if c = '[' then
        match parseArrTail fuel true r with
        | some (xs, rest) => some (.arr xs, rest)
        | none => none
      else if c = 't' then
        match expectLit ['r', 'u', 'e'] r with
        | some rest => some (.bool true, rest)
        | none => none
      else if c = 'f' then
        match expectLit ['a', 'l', 's', 'e'] r with
        | some rest => some (.bool false, rest)
        | none => none
      else if c = 'n' then
        match expectLit ['u', 'l', 'l'] r with
        | some rest => some (.null, rest)
        | none => none
      else
        match parseNum (c :: r) with
        | some (n, rest) => some (.num n, rest)
        | none => none

/-- Parse the remainder of an array after `[`; `first` is true until an
element has been read, so `]` right after a comma is rejected. -/
def parseArrTail : Nat → Bool → List Char → Option (List Json × List Char)
  | 0, _, _ => none
  | fuel + 1, first, cs =>
    match skipWs cs with
    | [] => none
    | c :: r =>
      if first && c = ']' then some ([], r)
      else
        match parseVal fuel (c :: r) with
        | none => none
        | some (v, rest) =>
          match skipWs rest with
          | [] => none
          | c2 :: r2 =>
            if c2 = ']' then some ([v], r2)
            else if c2 = ',' then
              match parseArrTail fuel false r2 with
              | some (vs, rest2) => some (v :: vs, rest2)
              | none => none
            else none

/-- Parse the remainder of an object after the opening brace. -/
def parseObjTail : Nat → Bool → List Char → Option (List (String × Json) × List Char)
  | 0, _, _ => none
  | fuel + 1, first, cs =>
    match skipWs cs with
    | [] => none
    | c :: r =>
      if first && c = rbrace then some ([], r)
      else if c = '"' then
        match parseStrAux [] r with
        | none => none
        | some (k, rest) =>
          match skipWs rest with
          | ':' :: r2 =>
            match parseVal fuel r2 with
            | none => none
            | some (v, rest2) =>
              match skipWs rest2 with
              | [] => none
              | c3 :: r3 =>
                if c3 = rbrace then some ([(k, v)], r3)
                else if c3 = ',' then
                  match parseObjTail fuel false r3 with
                  | some (fs, rest3) => some ((k, v) :: fs, rest3)
                  | none => none
                else none
          | _ => none
      else none

end

/-- Parse a whole JSON document: one value plus trailing whitespace, as
`json.Unmarshal` requires. -/
def parseJson (s : String) : Option Json :=
  match parseVal (2 * s.length + 2) s.toList with
  | some (j, rest) => if skipWs rest = [] then some j else none
  | none => none

/-! ## Data-transfer types (struct declarations of src/fcm.go) -/

/-- Per-target `Result` entry of the response. -/
structure Result where
  MessageId : String
  RegistrationId : String
  Error : String
deriving DecidableEq

/-- `HttpResponse`: the inbound FCM response.  The Go `int` fields are
modelled as `Int`; values held by the Go struct always fit in 64 bits. -/
structure HttpResponse where
  MulticastId : Int
  Success : Int
  Fail : Int
  CanonicalIds : Int
  Results : List Result
deriving DecidableEq

/-- `Notification`: the structured display block, all fields optional. -/
structure Notification where
  Title : String
  Body : String
  Sound : String
  ClickAction : String
  BodyLocKey : String
  BodyLocArgs : String
  TitleLocKey : String
  TitleLocArgs : String
  Icon : String
  Tag : String
  Color : String
  Badge : String
deriving DecidableEq

/-- `HttpMessage`: the outbound FCM request payload.  Go's `[]string` is a
list, `*uint` an `Option Nat`, the data payload (an empty-interface value)
an optional JSON value, and the `*Notification` pointer an optional block. -/
structure HttpMessage where
  To : String
  RegistrationIds : List String
  Condition : String
  CollapseKey : String
  Priority : String
  ContentAvailable : Bool
  TimeToLive : Option Nat
  RestrictedPackageName : String
  DryRun : Bool
  Data : Option Json
  Notification : Option Notification

/-! ## Encoding (json.Marshal with the source's struct tags) -/

/-- One field of a marshalled object: present when the option is set. -/
def optField (k : String) (o : Option Json) : List (String × Json) :=
  match o with
  | some v => [(k, v)]
  | none => []

/-- An `omitempty` string field: omitted exactly when empty. -/
def strOpt (s : String) : Option Json :=
  if s = "" then none else some (.str s)

/-- An `omitempty` bool field: omitted exactly when false. -/
def boolOpt (b : Bool) : Option Json :=
  if b then some (.bool true) else none

/-- An `omitempty` string-slice field: omitted exactly when nil or empty. -/
def listStrOpt (l : List String) : Option Json :=
  if l.isEmpty then none else some (.arr (l.map Json.str))

/-- Marshal a `Notification` (every field tagged `omitempty`). -/
def encodeNotification (n : Notification) : Json :=
  .obj (optField "title" (strOpt n.Title) ++
    optField "body" (strOpt n.Body) ++
    optField "sound" (strOpt n.Sound) ++
    optField "click_action" (strOpt n.ClickAction) ++
    optField "body_loc_key" (strOpt n.BodyLocKey) ++
    optField "body_loc_args" (strOpt n.BodyLocArgs) ++
    optField "title_loc_key" (strOpt n.TitleLocKey) ++
    optField "title_loc_args" (strOpt n.TitleLocArgs) ++
    optField "icon" (strOpt n.Icon) ++
    optField "tag" (strOpt n.Tag) ++
    optField "color" (strOpt n.Color) ++
    optField "badge" (strOpt n.Badge))

/-- Marshal an `HttpMessage` (every field tagged `omitempty`; a pointer or
interface field is empty exactly when nil, so a present `time_to_live` of 0
is still emitted). -/
def encodeHttpMessage (m : HttpMessage) : Json :=
  .obj (optField "to" (strOpt m.To) ++
    optField "registration_ids" (listStrOpt m.RegistrationIds) ++
    optField "condition" (strOpt m.Condition) ++
    optField "collapse_key" (strOpt m.CollapseKey) ++
    optField "priority" (strOpt m.Priority) ++
    optField "content_available" (boolOpt m.ContentAvailable) ++
    optField "time_to_live" (m.TimeToLive.map (fun v => Json.num v)) ++
    optField "restricted_package_name" (strOpt m.RestrictedPackageName) ++
    optField "dry_run" (boolOpt m.DryRun) ++
    optField "data" m.Data ++
    optField "notification" (m.Notification.map encodeNotification))

/-- Marshal a `Result` (no `omitempty`: all three fields always present). -/
def encodeResult (x : Result) : Json :=
  .obj [("message_id", .str x.MessageId),
    ("registration_id", .str x.RegistrationId),
    ("error", .str x.Error)]

/-- Marshal an `HttpResponse` (`results` alone is tagged `omitempty`). -/
def encodeHttpResponse (r : HttpResponse) : Json :=
  .obj ([("multicast_id", Json.num r.MulticastId),
    ("success", Json.num r.Success),
    ("failure", Json.num r.Fail),
    ("canonical_ids", Json.num r.CanonicalIds)] ++
    (if r.Results.isEmpty then []
     else [("results", Json.arr (r.Results.map encodeResult))]))

/-! ## Decoding (json.Unmarshal into the response structs)

`json.Unmarshal` keeps decoding after a type mismatch, reporting the first
error while leaving mismatched fields at their previous value; a JSON
`null` stored into any field is a no-op; unknown object keys are skipped;
a number stored into a Go `int` must fit in 64 bits. -/

/-- Decode errors: a malformed document, or a value of the wrong type. -/
inductive JsonErr where
  | synError : JsonErr
  | typeMismatch : JsonErr
deriving DecidableEq

/-- Keep the first error, as the Go decoder's saved error does. -/
def mergeErr (e1 e2 : Option JsonErr) : Option JsonErr :=
  match e1 with
  | some _ => e1
  | none => e2

/-- The int64 range, the overflow bound Go checks when storing a JSON
number into an `int` field. -/
def int64range (n : Int) : Prop := -(2 ^ 63) ≤ n ∧ n < 2 ^ 63

instance (n : Int) : Decidable (int64range n) := by
  unfold int64range; infer_instance

/-- Store a JSON value into a string field. -/
def setStrField (v : Json) (cur : String) (e : Option JsonErr) :
    String × Option JsonErr :=
  match v with
  | .str s => (s, e)
  | .null => (cur, e)
  | _ => (cur, mergeErr e (some .typeMismatch))

/-- Store a JSON value into an `int` field. -/
def setIntField (v : Json) (cur : Int) (e : Option JsonErr) :
    Int × Option JsonErr :=
  match v with
  | .num n => if int64range n then (n, e) else (cur, mergeErr e (some .typeMismatch))
  | .null => (cur, e)
  | _ => (cur, mergeErr e (some .typeMismatch))

/-- The zero value of `Result`. -/
def zeroResult : Result := ⟨"", "", ""⟩

/-- The zero value of `HttpResponse`. -/
def zeroResponse : HttpResponse := ⟨0, 0, 0, 0, []⟩

/-- Process one object member while unmarshalling a `Result`. -/
def stepResult (acc : Result × Option JsonErr) (kv : String × Json) :
    Result × Option JsonErr :=
  let (r, e) := acc
  if kv.1 = "message_id" then
    let (s, e') := setStrField kv.2 r.MessageId e
    ({ r with MessageId := s }, e')
  else if kv.1 = "registration_id" then
    let (s, e') := setStrField kv.2 r.RegistrationId e
    ({ r with RegistrationId := s }, e')
  else if kv.1 = "error" then
    let (s, e') := setStrField kv.2 r.Error e
    ({ r with Error := s }, e')
  else (r, e)

/-- Unmarshal one JSON value into a `Result`. -/
def decodeResult (j : Json) : Result × Option JsonErr :=
  match j with
  | .null => (zeroResult, none)
  | .obj fs => fs.foldl stepResult (zeroResult, none)
  | _ => (zeroResult, some .typeMismatch)

/-- Unmarshal the elements of a `results` array in order, keeping every
decoded element and the first error. -/
def decodeResultList : List Json → List Result × Option JsonErr
  | [] => ([], none)
  | x :: xs =>
    let (r, e1) := decodeResult x
    let (rs, e2) := decodeResultList xs
    (r :: rs, mergeErr e1 e2)

/-- Process one object member while unmarshalling an `HttpResponse`. -/
def stepResponse (acc : HttpResponse × Option JsonErr) (kv : String × Json) :
    HttpResponse × Option JsonErr :=
  let (r, e) := acc
  if kv.1 = "multicast_id" then
    let (n, e') := setIntField kv.2 r.MulticastId e
    ({ r with MulticastId := n }, e')
  else if kv.1 = "success" then
    let (n, e') := setIntField kv.2 r.Success e
    ({ r with Success := n }, e')
  else if kv.1 = "failure" then
    let (n, e') := setIntField kv.2 r.Fail e
    ({ r with Fail := n }, e')
  else if kv.1 = "canonical_ids" then
    let (n, e') := setIntField kv.2 r.CanonicalIds e
    ({ r with CanonicalIds := n }, e')
  else if kv.1 = "results" then
    match kv.2 with
    | .null => (r, e)
    | .arr xs =>
      let (rs, e2) := decodeResultList xs
      ({ r with Results := rs }, mergeErr e e2)
    | _ => (r, mergeErr e (some .typeMismatch))
  else (r, e)

/-- Unmarshal one JSON value into an `HttpResponse`. -/
def decodeHttpResponse (j : Json) : HttpResponse × Option JsonErr :=
  match j with
  | .null => (zeroResponse, none)
  | .obj fs => fs.foldl stepResponse (zeroResponse, none)
  | _ => (zeroResponse, some .typeMismatch)

/-- `json.Unmarshal(body, &response)`: parse the document, then decode it.
The struct value is returned alongside the error because Go writes into the
caller's variable even when it reports an error. -/
def unmarshalHttpResponse (s : String) : HttpResponse × Option JsonErr :=
  match parseJson s with
  | none => (zeroResponse, some .synError)
  | some j => decodeHttpResponse j

/-! ## The client -/

/-- FCM server address (`serverURL` / `server_url` in the two revisions). -/
def serverURL : String := "https://fcm.googleapis.com/fcm/send"

/-- `http.MethodPost`. -/
def MethodPost : String := "POST"

/-- `Client`: the API key credential and the mutable retry-after slot.  The
pooled transport holds no data any claim depends on and is left out. -/
structure Client where
  apiKey : String
  retryAfter : String
deriving DecidableEq

/-- `NewClient`: prefix the key to form the credential; the retry-after
slot starts at Go's zero value for strings. -/
def NewClient (apikey : String) : Client :=
  { apiKey := "key=" ++ apikey, retryAfter := "" }

/-- Characters allowed in a MIME header token (Go textproto's table). -/
def validHeaderFieldChar (c : Char) : Bool :=
  c.isAlphanum ||
    ("!#$%&*+-.^_|~".toList.contains c ||
      (c = Char.ofNat 39 || c = Char.ofNat 96))

/-- Case-fold a header key: uppercase after a start or a hyphen, lowercase
elsewhere. -/
def canonChars : Bool → List Char → List Char
  | _, [] => []
  | upper, c :: r =>
    (if upper then c.toUpper else c.toLower) :: canonChars (c = '-') r

/-- `http.CanonicalHeaderKey`: canonicalise when every character is a valid
token character, otherwise return the key unchanged. -/
def canonicalHeaderKey (s : String) : String :=
  if s.toList.all validHeaderFieldChar then String.mk (canonChars true s.toList)
  else s

/-- An outbound HTTP request as `SendHttp`/`Send` assemble it.  The Go
encoder terminates the JSON body with a newline; the claims only inspect
the structured body, kept here as the JSON value. -/
structure Request where
  method : String
  url : String
  headers : List (String × String)
  body : Json

/-- `Header.Add`: append under the canonical key. -/
def addHeader (hs : List (String × String)) (k v : String) :
    List (String × String) :=
  hs ++ [(canonicalHeaderKey k, v)]

/-- The request assembled by both `SendHttp` and `Send` before the network
round trip: POST to the fixed URL with the content-type and authorization
headers from the source. -/
def buildRequest (c : Client) (msg : HttpMessage) : Request :=
  { method := MethodPost
    url := serverURL
    headers :=
      addHeader (addHeader [] (canonicalHeaderKey "Content-Type") "application/json")
        (canonicalHeaderKey "Authorization") c.apiKey
    body := encodeHttpMessage msg }

/-- `Header.Get`: the first value stored under the key, or `""`. -/
def headerGet (hs : List (String × String)) (k : String) : String :=
  match hs.find? (fun p => p.1 = k) with
  | some p => p.2
  | none => ""

/-- A completed HTTP exchange: status code, status line, fully-read body,
response headers. -/
structure HttpResp where
  statusCode : Nat
  status : String
  body : String
  headers : List (String × String)

/-- Go errors produced by the send paths. -/
inductive GoError where
  | newError (msg : String) : GoError
  | jsonError (e : JsonErr) : GoError
  | transportError (msg : String) : GoError
deriving DecidableEq

/-- Outcome of the network phase: `failed` covers a `RoundTrip` or body
`ReadAll` error (both return the error with a nil response), `completed` a
fully-read response. -/
inductive ExchangeOutcome where
  | failed (msg : String) : ExchangeOutcome
  | completed (resp : HttpResp) : ExchangeOutcome

/-- The decode phase shared verbatim by both revisions: unmarshal the body,
and on success store the `Retry-After` header value in the client's slot. -/
def decodePhase (c : Client) (resp : HttpResp) :
    Option HttpResponse × Option GoError × Client :=
  let (response, err) := unmarshalHttpResponse resp.body
  match err with
  | none =>
    (some response, none,
      { c with retryAfter := headerGet resp.headers (canonicalHeaderKey "Retry-After") })
  | some e => (some response, some (.jsonError e), c)

/-- `SendHttp` (first revision) after the network phase: a non-200 status
fails with `errors.New(status + ": " + body)` before any decoding;
otherwise the body is unmarshalled and the retry-after slot updated. -/
def SendHttp (c : Client) (x : ExchangeOutcome) :
    Option HttpResponse × Option GoError × Client :=
  match x with
  | .failed m => (none, some (.transportError m), c)
  | .completed resp =>
    if resp.statusCode ≠ 200 then
      (none, some (.newError (resp.status ++ ": " ++ resp.body)), c)
    else decodePhase c resp

/-- `Send` (second revision) after the network phase: it performs no status
check at all and unmarshals the body whatever the status was. -/
def Send (c : Client) (x : ExchangeOutcome) :
    Option HttpResponse × Option GoError × Client :=
  match x with
  | .failed m => (none, some (.transportError m), c)
  | .completed resp => decodePhase c resp

/-! ## GetRetryAfter -/

/-- `strconv.Atoi`: optional sign, decimal digits, value within int64;
anything else (empty digits, stray characters, overflow) is an error. -/
def atoi (s : String) : Option Int :=
  let cs := s.toList
  let signed : Bool × List Char :=
    match cs with
    | '-' :: r => (true, r)
    | '+' :: r => (false, r)
    | r => (false, r)
  match signed.2 with
  | [] => none
  | ds =>
    if ds.all (fun c => c.isDigit) then
      let v : Int :=
        if signed.1 then -(digitsToNat ds : Int) else (digitsToNat ds : Int)
      if int64range v then some v else none
    else none

/-- Nanoseconds per second, the scale of Go's `time.Duration`. -/
def nsPerSec : Int := 1000000000

/-- `GetRetryAfter` (identical in both revisions).  `parseTime` stands for
`http.ParseTime`, giving the parsed timestamp in epoch seconds (HTTP dates
have whole-second resolution); `nowNs` is `time.Now()` in epoch
nanoseconds.  `uint(ra)` is Go's int-to-uint conversion, `ra` modulo
`2 ^ 64`; `uint(sec)` truncates the nonnegative seconds value. -/
def GetRetryAfter (parseTime : String → Option Int) (nowNs : Int)
    (c : Client) : Nat :=
  if c.retryAfter = "" then 0
  else
    match atoi c.retryAfter with
    | some ra => ((ra % 2 ^ 64).toNat)
    | none =>
      match parseTime c.retryAfter with
      | some ts =>
        let diffNs := ts * nsPerSec - nowNs
        if diffNs < 0 then 0 else (diffNs / nsPerSec).toNat
      | none => 0

/-- Whether a serialized object carries a member named `k`. -/
def hasKey (j : Json) (k : String) : Bool :=
  match j with
  | .obj fs => fs.any (fun p => p.1 == k)
  | _ => false

end Fcm

open Fcm

/-! ## Helper lemmas -/

theorem hasKey_obj (fs : List (String × Json)) (k : String) :
    hasKey (.obj fs) k = fs.any (fun p => p.1 == k) := rfl

theorem optField_any (k k' : String) (o : Option Json) :
    (optField k o).any (fun p => p.1 == k') = (o.isSome && (k == k')) := by
  cases o <;> simp [optField]

theorem strOpt_isSome (s : String) : (strOpt s).isSome = !(s == "") := by
  by_cases h : s = "" <;> simp [strOpt, h]

theorem boolOpt_isSome (b : Bool) : (boolOpt b).isSome = b := by
  cases b <;> simp [boolOpt]

theorem listStrOpt_isSome (l : List String) :
    (listStrOpt l).isSome = !l.isEmpty := by
  by_cases h : l.isEmpty <;> simp [listStrOpt, h]

theorem atoi_empty : atoi "" = none := rfl

theorem atoi_int64range {s : String} {n : Int} (h : atoi s = some n) :
    int64range n := by
  simp only [atoi] at h
  repeat' split at h
  all_goals simp_all

/-! ## Claims -/

/-- C7: for every API key `k` and every message, the request built by a
client constructed with `NewClient k` is an HTTP POST to the fixed URL
`https://fcm.googleapis.com/fcm/send` carrying `Content-Type:
application/json` and `Authorization: key=<k>` (the credential is `k`
prefixed with `key=`). -/
theorem request_post_fixed_url_headers (k : String) (msg : HttpMessage) :
    buildRequest (NewClient k) msg =
      { method := "POST"
        url := "https://fcm.googleapis.com/fcm/send"
        headers := [("Content-Type", "application/json"),
          ("Authorization", "key=" ++ k)]
        body := encodeHttpMessage msg } := by
  rfl

/-- C8: for every stored retry-after string that parses as a negative
integer `n`, `GetRetryAfter` returns the unsigned conversion of `n`
(`n` modulo `2 ^ 64`, an enormous value), not 0. -/
theorem getRetryAfter_negative_unsigned_conversion
    (pt : String → Option Int) (now : Int) (c : Client) (n : Int)
    (h : atoi c.retryAfter = some n) (hn : n < 0) :
    GetRetryAfter pt now c = (n % 2 ^ 64).toNat ∧
    GetRetryAfter pt now c ≠ 0 := by
  have hne : c.retryAfter ≠ "" := by
    intro he; rw [he, atoi_empty] at h; cases h
  have hr := atoi_int64range h
  unfold int64range at hr
  have hmain : GetRetryAfter pt now c = (n % 2 ^ 64).toNat := by
    unfold GetRetryAfter
    rw [if_neg hne, h]
  refine ⟨hmain, ?_⟩
  rw [hmain]
  have h64 : (2 : Int) ^ 64 = 18446744073709551616 := by norm_num
  have h63 : (2 : Int) ^ 63 = 9223372036854775808 := by norm_num
  rw [h64]; rw [h63] at hr
  omega

/-- C8 witness: with stored string `"-5"` the call returns `2 ^ 64 - 5`. -/
theorem getRetryAfter_negative_unsigned_conversion_witness :
    GetRetryAfter (fun _ => none) 0 { apiKey := "key=k", retryAfter := "-5" }
        = 18446744073709551611 ∧
    GetRetryAfter (fun _ => none) 0 { apiKey := "key=k", retryAfter := "-5" }
        ≠ 0 := by
  have h := getRetryAfter_negative_unsigned_conversion (fun _ => none) 0
    { apiKey := "key=k", retryAfter := "-5" } (-5) (by decide) (by decide)
  exact ⟨by rw [h.1]; decide, h.2⟩

/-- C2 counterexample: with stored string `"-5"`, `GetRetryAfter` returns
`2 ^ 64 - 5`, which is neither the parsed integer value `-5` nor the 0 the
claim's fallback clause would give. -/
theorem getRetryAfter_negative_string_neither_value_nor_zero :
    GetRetryAfter (fun _ => none) 0 { apiKey := "key=k", retryAfter := "-5" }
        = 18446744073709551611 ∧
    (18446744073709551611 : Nat) ≠ 0 ∧
    ((18446744073709551611 : Nat) : Int) ≠ -5 := by
  exact ⟨by decide, by decide, by decide⟩

/-- C2 (amended): empty stored string gives 0; a string parsing as a plain
integer `n` gives the unsigned conversion of `n` (equal to the integer
value whenever `n ≥ 0`); otherwise a string parsing as an HTTP timestamp
gives the timestamp minus the current time clamped to 0 when negative;
otherwise 0; with no prior successful Send the result is 0.  The call is a
total function, so it never fails. -/
theorem getRetryAfter_characterization (pt : String → Option Int)
    (now : Int) (c : Client) :
    (c.retryAfter = "" → GetRetryAfter pt now c = 0) ∧
    (∀ n, atoi c.retryAfter = some n →
      GetRetryAfter pt now c = (n % 2 ^ 64).toNat) ∧
    (∀ n, atoi c.retryAfter = some n → 0 ≤ n →
      GetRetryAfter pt now c = n.toNat) ∧
    (∀ t, c.retryAfter ≠ "" → atoi c.retryAfter = none →
      pt c.retryAfter = some t →
      GetRetryAfter pt now c =
        ((max 0 (t * nsPerSec - now)) / nsPerSec).toNat) ∧
    (c.retryAfter ≠ "" → atoi c.retryAfter = none →
      pt c.retryAfter = none → GetRetryAfter pt now c = 0) ∧
    (∀ k, GetRetryAfter pt now (NewClient k) = 0) := by
  refine ⟨?_, ?_, ?_, ?_, ?_, ?_⟩
  · intro h
    unfold GetRetryAfter
    rw [if_pos h]
  · intro n h
    have hne : c.retryAfter ≠ "" := by
      intro he; rw [he, atoi_empty] at h; cases h
    unfold GetRetryAfter
    rw [if_neg hne, h]
  · intro n h h0
    have hne : c.retryAfter ≠ "" := by
      intro he; rw [he, atoi_empty] at h; cases h
    have hr := atoi_int64range h
    unfold int64range at hr
    unfold GetRetryAfter
    rw [if_neg hne, h]
    dsimp only
    have : n % 2 ^ 64 = n := Int.emod_eq_of_lt h0 (by omega)
    rw [this]
  · intro t hne hA hT
    unfold GetRetryAfter
    rw [if_neg hne, hA, hT]
    dsimp only
    by_cases hd : t * nsPerSec - now < 0
    · rw [if_pos hd, max_eq_left (le_of_lt hd)]
      decide
    · rw [if_neg hd, max_eq_right (le_of_not_lt hd)]
  · intro hne hA hT
    unfold GetRetryAfter
    rw [if_neg hne, hA, hT]
  · intro k
    simp [GetRetryAfter, NewClient]

/-- C2 witness: a stored timestamp 30 s after the epoch with the current
time at 5 s gives 25. -/
theorem getRetryAfter_characterization_witness :
    GetRetryAfter
        (fun s => if s = "Thu, 01 Jan 1970 00:00:30 GMT" then some 30 else none)
        (5 * 1000000000)
        { apiKey := "key=k", retryAfter := "Thu, 01 Jan 1970 00:00:30 GMT" }
      = 25 := by
  have h := (getRetryAfter_characterization
      (fun s => if s = "Thu, 01 Jan 1970 00:00:30 GMT" then some 30 else none)
      (5 * 1000000000)
      { apiKey := "key=k", retryAfter := "Thu, 01 Jan 1970 00:00:30 GMT" }).2.2.2.1
      30 (by decide) (by decide) (by simp)
  rw [h]
  decide

theorem canonicalHeaderKey_retryAfter :
    canonicalHeaderKey "Retry-After" = "Retry-After" := by decide

/-- C1 counterexample: `Send` on an HTTP 400 exchange whose body is the
JSON object `\x7b\x7d` decodes the body and returns it with no error at
all — the call does not fail with a gateway error. -/
theorem send_status400_decodes_and_succeeds :
    Send (NewClient "k")
        (.completed
          { statusCode := 400, status := "400 Bad Request",
            body := "\x7b\x7d", headers := [] }) =
      (some zeroResponse, none, { apiKey := "key=k", retryAfter := "" }) ∧
    (Send (NewClient "k")
        (.completed
          { statusCode := 400, status := "400 Bad Request",
            body := "\x7b\x7d", headers := [] })).2.1 = none := by
  exact ⟨by decide, by decide⟩

/-- C1 (amended): `SendHttp` on a completed exchange with status other
than 200 fails with the gateway error `errors.New(status + ": " + body)`,
leaves the client unchanged and decodes nothing (the result is the same
for every body); `Send` has no status check: it decodes the body whatever
the status, returning the decoded value, the decode error if any, and
updating the retry-after slot exactly on decode success. -/
theorem sendHttp_non200_gateway_send_unchecked (c : Client) (resp : HttpResp) :
    (resp.statusCode ≠ 200 →
      SendHttp c (.completed resp) =
        (none, some (.newError (resp.status ++ ": " ++ resp.body)), c)) ∧
    Send c (.completed resp) =
      (some (unmarshalHttpResponse resp.body).1,
        (unmarshalHttpResponse resp.body).2.map GoError.jsonError,
        if (unmarshalHttpResponse resp.body).2 = none then
          { c with retryAfter := headerGet resp.headers "Retry-After" }
        else c) := by
  constructor
  · intro h
    simp only [SendHttp]
    rw [if_pos h]
  · simp only [Send, decodePhase, canonicalHeaderKey_retryAfter]
    rcases hu : unmarshalHttpResponse resp.body with ⟨r, e⟩
    cases e <;> simp

/-- C1 witness: `SendHttp` on a 400 exchange fails with the gateway error
carrying the status line and the raw body. -/
theorem sendHttp_non200_gateway_send_unchecked_witness :
    SendHttp (NewClient "k")
        (.completed
          { statusCode := 400, status := "400 Bad Request",
            body := "oops", headers := [] }) =
      (none, some (.newError "400 Bad Request: oops"), NewClient "k") := by
  have h := (sendHttp_non200_gateway_send_unchecked (NewClient "k")
      { statusCode := 400, status := "400 Bad Request",
        body := "oops", headers := [] }).1 (by decide)
  rw [h]
  decide

/-- C3: on a 200 exchange, for both `SendHttp` and `Send`, the retry-after
slot is overwritten with the `Retry-After` header value exactly when the
body parses as an `HttpResponse`; on parse failure the call fails with a
decode error and the client (its retry-after slot included) is unchanged. -/
theorem retryAfter_update_iff_parse_ok (c : Client) (resp : HttpResp)
    (h200 : resp.statusCode = 200) :
    ((unmarshalHttpResponse resp.body).2 = none →
      (SendHttp c (.completed resp)).2.2 =
        { c with retryAfter := headerGet resp.headers "Retry-After" } ∧
      (Send c (.completed resp)).2.2 =
        { c with retryAfter := headerGet resp.headers "Retry-After" }) ∧
    (∀ e, (unmarshalHttpResponse resp.body).2 = some e →
      SendHttp c (.completed resp) =
        (some (unmarshalHttpResponse resp.body).1, some (.jsonError e), c) ∧
      Send c (.completed resp) =
        (some (unmarshalHttpResponse resp.body).1, some (.jsonError e), c)) := by
  have h2 : ¬resp.statusCode ≠ 200 := by simp [h200]
  have hS : SendHttp c (.completed resp) = decodePhase c resp := by
    simp only [SendHttp]
    rw [if_neg h2]
  have hT : Send c (.completed resp) = decodePhase c resp := rfl
  constructor
  · intro hok
    rw [hS, hT]
    simp only [decodePhase, canonicalHeaderKey_retryAfter]
    rcases hu : unmarshalHttpResponse resp.body with ⟨r, e⟩
    rw [hu] at hok
    have hok2 : e = none := hok
    subst hok2
    exact ⟨rfl, rfl⟩
  · intro e he
    rw [hS, hT]
    simp only [decodePhase]
    rcases hu : unmarshalHttpResponse resp.body with ⟨r, e'⟩
    rw [hu] at he
    have he2 : e' = some e := he
    subst he2
    exact ⟨rfl, rfl⟩

/-- C3 witness: a 200 response with header `Retry-After: 120` and body
`\x7b\x7d` overwrites a previously stored `"7"` with `"120"`; a 200
response with a malformed body fails with a decode error and leaves the
stored `"7"` in place. -/
theorem retryAfter_update_iff_parse_ok_witness :
    (SendHttp { apiKey := "key=k", retryAfter := "7" }
        (.completed
          { statusCode := 200, status := "200 OK",
            body := "\x7b\x7d", headers := [("Retry-After", "120")] })).2.2 =
      { apiKey := "key=k", retryAfter := "120" } ∧
    SendHttp { apiKey := "key=k", retryAfter := "7" }
        (.completed
          { statusCode := 200, status := "200 OK",
            body := "nope", headers := [("Retry-After", "120")] }) =
      (some zeroResponse, some (.jsonError .synError),
        { apiKey := "key=k", retryAfter := "7" }) := by
  constructor
  · have h := ((retryAfter_update_iff_parse_ok
        { apiKey := "key=k", retryAfter := "7" }
        { statusCode := 200, status := "200 OK",
          body := "\x7b\x7d", headers := [("Retry-After", "120")] }
        (by decide)).1 (by decide)).1
    rw [h]
    decide
  · have h := ((retryAfter_update_iff_parse_ok
        { apiKey := "key=k", retryAfter := "7" }
        { statusCode := 200, status := "200 OK",
          body := "nope", headers := [("Retry-After", "120")] }
        (by decide)).2 .synError (by decide)).1
    rw [h]
    decide

/-- C9: when a 200 body fails to decode, `SendHttp` returns a non-nil
(`some`) response — the zero value when the document is malformed,
partially populated otherwise — together with the decode error, while a
transport failure and a non-200 status both return `none` with their
error. -/
theorem sendHttp_decode_error_non_nil_response (c : Client) (resp : HttpResp) :
    (resp.statusCode = 200 → ∀ e, (unmarshalHttpResponse resp.body).2 = some e →
      SendHttp c (.completed resp) =
        (some (unmarshalHttpResponse resp.body).1, some (.jsonError e), c)) ∧
    (parseJson resp.body = none →
      (unmarshalHttpResponse resp.body).1 = zeroResponse) ∧
    (∀ m, SendHttp c (.failed m) = (none, some (.transportError m), c)) ∧
    (resp.statusCode ≠ 200 → (SendHttp c (.completed resp)).1 = none) := by
  refine ⟨?_, ?_, ?_, ?_⟩
  · intro h200 e he
    have h2 : ¬resp.statusCode ≠ 200 := by simp [h200]
    simp only [SendHttp]
    rw [if_neg h2]
    simp only [decodePhase]
    rcases hu : unmarshalHttpResponse resp.body with ⟨r, e'⟩
    rw [hu] at he
    have he2 : e' = some e := he
    subst he2
    rfl
  · intro hp
    simp only [unmarshalHttpResponse]
    rw [hp]
  · intro m
    rfl
  · intro h
    simp only [SendHttp]
    rw [if_pos h]

/-- C9 witness: a 200 exchange with the non-JSON body `nope` returns the
zero response under `some` together with the decode error; a transport
failure returns `none`. -/
theorem sendHttp_decode_error_non_nil_response_witness :
    SendHttp { apiKey := "key=k", retryAfter := "" }
        (.completed
          { statusCode := 200, status := "200 OK",
            body := "nope", headers := [] }) =
      (some zeroResponse, some (.jsonError .synError),
        { apiKey := "key=k", retryAfter := "" }) ∧
    SendHttp { apiKey := "key=k", retryAfter := "" } (.failed "timeout") =
      (none, some (.transportError "timeout"),
        { apiKey := "key=k", retryAfter := "" }) := by
  constructor
  · have h := (sendHttp_decode_error_non_nil_response
        { apiKey := "key=k", retryAfter := "" }
        { statusCode := 200, status := "200 OK",
          body := "nope", headers := [] }).1 (by decide) .synError (by decide)
    rw [h]
    decide
  · exact (sendHttp_decode_error_non_nil_response
      { apiKey := "key=k", retryAfter := "" }
      { statusCode := 200, status := "200 OK",
        body := "nope", headers := [] }).2.2.1 "timeout"

/-- C10: a 200 response that decodes successfully but carries no
`Retry-After` header overwrites the stored retry-after value with the
empty string, and `GetRetryAfter` on the resulting client returns 0. -/
theorem sendHttp_no_retry_header_clears_slot (c : Client) (resp : HttpResp)
    (pt : String → Option Int) (now : Int)
    (h200 : resp.statusCode = 200)
    (hok : (unmarshalHttpResponse resp.body).2 = none)
    (hh : resp.headers.find? (fun p => p.1 = "Retry-After") = none) :
    (SendHttp c (.completed resp)).2.2.retryAfter = "" ∧
    GetRetryAfter pt now (SendHttp c (.completed resp)).2.2 = 0 := by
  have h2 : ¬resp.statusCode ≠ 200 := by simp [h200]
  have hg : headerGet resp.headers (canonicalHeaderKey "Retry-After") = "" := by
    rw [canonicalHeaderKey_retryAfter]
    simp only [headerGet]
    rw [hh]
  simp only [SendHttp]
  rw [if_neg h2]
  simp only [decodePhase]
  rcases hu : unmarshalHttpResponse resp.body with ⟨r, e⟩
  rw [hu] at hok
  have hok2 : e = none := hok
  subst hok2
  refine ⟨hg, ?_⟩
  simp only [GetRetryAfter]
  rw [if_pos hg]

/-- C10 witness: a prior stored `"120"` is cleared by a 200 exchange with
decodable body and no `Retry-After` header, after which `GetRetryAfter`
returns 0. -/
theorem sendHttp_no_retry_header_clears_slot_witness :
    (SendHttp { apiKey := "key=k", retryAfter := "120" }
        (.completed
          { statusCode := 200, status := "200 OK",
            body := "\x7b\x7d", headers := [("Content-Length", "2")] })).2.2.retryAfter
      = "" ∧
    GetRetryAfter (fun _ => none) 0
        (SendHttp { apiKey := "key=k", retryAfter := "120" }
          (.completed
            { statusCode := 200, status := "200 OK",
              body := "\x7b\x7d", headers := [("Content-Length", "2")] })).2.2
      = 0 :=
  sendHttp_no_retry_header_clears_slot
    { apiKey := "key=k", retryAfter := "120" }
    { statusCode := 200, status := "200 OK",
      body := "\x7b\x7d", headers := [("Content-Length", "2")] }
    (fun _ => none) 0 (by decide) (by decide) (by decide)

theorem decodeResult_encodeResult (x : Result) :
    decodeResult (encodeResult x) = (x, none) := by
  obtain ⟨a, b, c⟩ := x
  simp [encodeResult, decodeResult, stepResult, setStrField]

theorem decodeResultList_map (rs : List Result) :
    decodeResultList (rs.map encodeResult) = (rs, none) := by
  induction rs with
  | nil => rfl
  | cons x xs ih =>
    simp only [List.map_cons, decodeResultList, decodeResult_encodeResult, ih,
      mergeErr]

/-- C4: decoding the serialized form of any `HttpResponse` yields the
original value field for field, with no error (the integer fields carry
the Go `int` invariant of fitting in 64 bits). -/
theorem decode_encode_roundTrip (r : HttpResponse)
    (h1 : int64range r.MulticastId) (h2 : int64range r.Success)
    (h3 : int64range r.Fail) (h4 : int64range r.CanonicalIds) :
    decodeHttpResponse (encodeHttpResponse r) = (r, none) := by
  obtain ⟨a, b, c, d, rs⟩ := r
  simp only at h1 h2 h3 h4
  cases rs with
  | nil =>
    simp [encodeHttpResponse, decodeHttpResponse, stepResponse, setIntField,
      h1, h2, h3, h4, zeroResponse]
  | cons x xs =>
    have h5 := decodeResultList_map (x :: xs)
    simp only [List.map_cons] at h5
    simp [encodeHttpResponse, decodeHttpResponse, stepResponse, setIntField,
      h1, h2, h3, h4, h5, mergeErr, zeroResponse]

/-- C4 witness: a concrete response with one result entry round-trips. -/
theorem decode_encode_roundTrip_witness :
    decodeHttpResponse (encodeHttpResponse
        { MulticastId := 5, Success := 2, Fail := 1, CanonicalIds := 0,
          Results := [{ MessageId := "a", RegistrationId := "b", Error := "c" }] }) =
      ({ MulticastId := 5, Success := 2, Fail := 1, CanonicalIds := 0,
          Results := [{ MessageId := "a", RegistrationId := "b", Error := "c" }] },
        none) :=
  decode_encode_roundTrip _ (by decide) (by decide) (by decide) (by decide)

/-- C5: for every `HttpMessage` and every nested `Notification`, the
serialized object carries a key exactly when the corresponding
`omitempty` field is set; an unset optional field's key is absent
entirely, so it is never emitted as null or as a zero value. -/
theorem optional_fields_omitted (m : HttpMessage) (n : Notification) :
    (hasKey (encodeHttpMessage m) "to" = !(m.To == "")) ∧
    (hasKey (encodeHttpMessage m) "registration_ids" = !m.RegistrationIds.isEmpty) ∧
    (hasKey (encodeHttpMessage m) "condition" = !(m.Condition == "")) ∧
    (hasKey (encodeHttpMessage m) "collapse_key" = !(m.CollapseKey == "")) ∧
    (hasKey (encodeHttpMessage m) "priority" = !(m.Priority == "")) ∧
    (hasKey (encodeHttpMessage m) "content_available" = m.ContentAvailable) ∧
    (hasKey (encodeHttpMessage m) "time_to_live" = m.TimeToLive.isSome) ∧
    (hasKey (encodeHttpMessage m) "restricted_package_name" =
      !(m.RestrictedPackageName == "")) ∧
    (hasKey (encodeHttpMessage m) "dry_run" = m.DryRun) ∧
    (hasKey (encodeHttpMessage m) "data" = m.Data.isSome) ∧
    (hasKey (encodeHttpMessage m) "notification" = m.Notification.isSome) ∧
    (hasKey (encodeNotification n) "title" = !(n.Title == "")) ∧
    (hasKey (encodeNotification n) "body" = !(n.Body == "")) ∧
    (hasKey (encodeNotification n) "sound" = !(n.Sound == "")) ∧
    (hasKey (encodeNotification n) "click_action" = !(n.ClickAction == "")) ∧
    (hasKey (encodeNotification n) "body_loc_key" = !(n.BodyLocKey == "")) ∧
    (hasKey (encodeNotification n) "body_loc_args" = !(n.BodyLocArgs == "")) ∧
    (hasKey (encodeNotification n) "title_loc_key" = !(n.TitleLocKey == "")) ∧
    (hasKey (encodeNotification n) "title_loc_args" = !(n.TitleLocArgs == "")) ∧
    (hasKey (encodeNotification n) "icon" = !(n.Icon == "")) ∧
    (hasKey (encodeNotification n) "tag" = !(n.Tag == "")) ∧
    (hasKey (encodeNotification n) "color" = !(n.Color == "")) ∧
    (hasKey (encodeNotification n) "badge" = !(n.Badge == "")) := by
  refine ⟨?_, ?_, ?_, ?_, ?_, ?_, ?_, ?_, ?_, ?_, ?_, ?_, ?_, ?_, ?_, ?_,
    ?_, ?_, ?_, ?_, ?_, ?_, ?_⟩ <;>
    simp [encodeHttpMessage, encodeNotification, hasKey_obj, List.any_append,
      optField_any, strOpt_isSome, boolOpt_isSome, listStrOpt_isSome,
      Option.isSome_map]
  cases m.TimeToLive <;> simp

/-- C6: a send operation (either revision) receiving HTTP 200 with body
`\x7b"multicast_id":1,"success":1,"failure":0,"canonical_ids":0,
"results":[\x7b"message_id":"m1"\x7d]\x7d` succeeds and yields a response
with `Success = 1`, `Fail = 0` and exactly one `Result` whose `MessageId`
is `"m1"`. -/
theorem send200_sample_body_success :
    SendHttp (NewClient "k")
        (.completed
          { statusCode := 200, status := "200 OK",
            body := "\x7b\"multicast_id\":1,\"success\":1,\"failure\":0,\"canonical_ids\":0,\"results\":[\x7b\"message_id\":\"m1\"\x7d]\x7d",
            headers := [] }) =
      (some
          { MulticastId := 1, Success := 1, Fail := 0, CanonicalIds := 0,
            Results := [{ MessageId := "m1", RegistrationId := "", Error := "" }] },
        none, { apiKey := "key=k", retryAfter := "" }) ∧
    Send (NewClient "k")
        (.completed
          { statusCode := 200, status := "200 OK",
            body := "\x7b\"multicast_id\":1,\"success\":1,\"failure\":0,\"canonical_ids\":0,\"results\":[\x7b\"message_id\":\"m1\"\x7d]\x7d",
            headers := [] }) =
      (some
          { MulticastId := 1, Success := 1, Fail := 0, CanonicalIds := 0,
            Results := [{ MessageId := "m1", RegistrationId := "", Error := "" }] },
        none, { apiKey := "key=k", retryAfter := "" }) := by
  exact ⟨by decide, by decide⟩
